import Mathlib

/-!
# Verification of the CleanCommute emissions estimator

Shallow embedding of `src/emissions.py` (the core estimator) and of the
call site in `src/app.py` (`auto_compare`), together with proofs settling
the specification claims.

Modelling conventions:
* Python floats are modelled as `PyFloat`: either NaN or an exact rational.
  IEEE comparisons with NaN are false; arithmetic propagates NaN.
* Python's dynamically typed values (as far as the estimator observes them)
  are modelled by `PyVal` (None, str, int, float).
* `round(x, n)` is Python's round-half-to-even at `n` decimal digits,
  modelled exactly on rationals.
* Exceptions are modelled by `Except PyErr`.
-/

namespace CleanCommute

/-- Python runtime errors relevant to the estimator. -/
inductive PyErr where
  | valueError : PyErr
  | typeError : PyErr
  | attributeError : PyErr
deriving DecidableEq, Repr

/-- A Python float: NaN or an exact rational value. -/
inductive PyFloat where
  | nan : PyFloat
  | val : ℚ → PyFloat
deriving DecidableEq, Repr

/-- A dynamically typed Python value, as far as the estimator observes it. -/
inductive PyVal where
  | none : PyVal
  | str : String → PyVal
  | int : ℤ → PyVal
  | float : PyFloat → PyVal
deriving DecidableEq, Repr

/-- Equality of `Except` values is decidable componentwise. -/
instance {ε α : Type} [DecidableEq ε] [DecidableEq α] :
    DecidableEq (Except ε α)
  | .error e, .error f => decidable_of_iff (e = f) (by simp)
  | .ok a, .ok b => decidable_of_iff (a = b) (by simp)
  | .error _, .ok _ => isFalse (by simp)
  | .ok _, .error _ => isFalse (by simp)

/-- Round a rational to the nearest integer, ties to even
(the rounding used by Python's builtin `round`).  Written with raw
numerator/denominator arithmetic so that it evaluates by `decide`;
`q.num / q.den` is `⌊q⌋` (see `roundHalfEven_eq`). -/
def roundHalfEven (q : ℚ) : ℤ :=
  let f : ℤ := q.num / (q.den : ℤ)
  if q - (f : ℚ) < 1/2 then f
  else if 1/2 < q - (f : ℚ) then f + 1
  else if f % 2 = 0 then f else f + 1

/-- `roundHalfEven` phrased with the mathematical floor. -/
theorem roundHalfEven_eq (q : ℚ) :
    roundHalfEven q =
      if q - (⌊q⌋ : ℚ) < 1/2 then ⌊q⌋
      else if 1/2 < q - (⌊q⌋ : ℚ) then ⌊q⌋ + 1
      else if ⌊q⌋ % 2 = 0 then ⌊q⌋ else ⌊q⌋ + 1 := by
  simp only [roundHalfEven, ← Rat.floor_def]

/-- Python's `round(q, n)` on (exact) rationals. -/
def pyRound (q : ℚ) (n : ℕ) : ℚ :=
  (roundHalfEven (q * ((10 ^ n : ℕ) : ℚ)) : ℚ) / ((10 ^ n : ℕ) : ℚ)

/-- ASCII lower-casing of a character (what `str.lower()` does on the
characters occurring in mode names). -/
def pyLowerChar (c : Char) : Char :=
  if 65 ≤ c.toNat ∧ c.toNat ≤ 90 then Char.ofNat (c.toNat + 32) else c

/-- `str.lower()`. -/
def pyLower (s : String) : String :=
  ⟨s.data.map pyLowerChar⟩

/-- Truthiness of a `PyVal` (Python `bool(x)`). NaN is truthy. -/
def pyTruthy : PyVal → Bool
  | .none => false
  | .str s => s ≠ ""
  | .int n => n ≠ 0
  | .float .nan => true
  | .float (.val q) => q ≠ 0

/-- Python's short-circuiting `a or b`. -/
def pyOr (a b : PyVal) : PyVal :=
  if pyTruthy a then a else b

/-- Python's `x <= 0` (with `0` an int literal): IEEE comparison on
numbers (false for NaN), `TypeError` on str/None. -/
def pyLeZero : PyVal → Except PyErr Bool
  | .int n => .ok (decide (n ≤ 0))
  | .float .nan => .ok false
  | .float (.val q) => .ok (decide (q ≤ 0))
  | .str _ => .error .typeError
  | .none => .error .typeError

/-- Python's `x.lower()`: only str has the attribute. -/
def pyLowerMethod : PyVal → Except PyErr String
  | .str s => .ok (pyLower s)
  | _ => .error .attributeError

/-- Python's `x * f` with `f` a non-NaN float: int and float promote,
NaN propagates, str/None raise `TypeError` (unreachable in the source). -/
def pyMulFloat : PyVal → ℚ → Except PyErr PyFloat
  | .int n, q => .ok (.val (n * q))
  | .float .nan, _ => .ok .nan
  | .float (.val a), q => .ok (.val (a * q))
  | .str _, _ => .error .typeError
  | .none, _ => .error .typeError

/-- Division of a float by a (nonzero) int, NaN propagating. -/
def PyFloat.divInt : PyFloat → ℤ → PyFloat
  | .nan, _ => .nan
  | .val a, n => .val (a / n)

/-- `round(x, k)` on a float, NaN propagating. -/
def PyFloat.round : PyFloat → ℕ → PyFloat
  | .nan, _ => .nan
  | .val a, k => .val (pyRound a k)

/-- Python's `round(x, k)` on a numeric `PyVal`: int stays int,
float stays float, str/None raise `TypeError` (unreachable). -/
def pyRoundVal : PyVal → ℕ → Except PyErr PyVal
  | .int n, _ => .ok (.int n)
  | .float x, k => .ok (.float (x.round k))
  | .str _, _ => .error .typeError
  | .none, _ => .error .typeError

/-- The rational carried by a non-NaN float (0 for NaN); a convenience
accessor for stating theorems. -/
def PyFloat.toRat : PyFloat → ℚ
  | .nan => 0
  | .val q => q

/-! ## `src/emissions.py` -/

/-- `_FACTORS` (emissions.py:33): the fixed emission-factor table,
in Python dict insertion order. -/
def FACTORS : List (String × ℚ) :=
  [("car", 0.192),
   ("car_gas", 0.192),
   ("car_hybrid", 0.120),
   ("rideshare", 0.212),
   ("bus", 0.082),
   ("train", 0.041),
   ("subway", 0.045),
   ("bike", 0.0),
   ("walk", 0.0)]

/-- `_PER_VEHICLE` (emissions.py:46): modes that emit per vehicle. -/
def PER_VEHICLE : List String :=
  ["car", "car_gas", "car_hybrid", "rideshare"]

/-- `_factor_for` (emissions.py:51): factor for a mode, defaulting to
`car` when unknown.  (`mode or ""` is the identity on strings.) -/
def factor_for (mode : String) : ℚ :=
  ((FACTORS.lookup (pyLower (pyOrStr mode ""))).getD
    ((FACTORS.lookup "car").getD 0))
where
  /-- Python `s or t` on strings. -/
  pyOrStr (s t : String) : String := if s = "" then t else s

/-- The result dict of `estimate_emissions` (emissions.py:88-96). -/
structure EmissionEstimate where
  mode : String
  distance_km : PyVal
  passengers : ℤ
  factor_kg_per_km : ℚ
  kgCO2e : PyFloat
  estimated_co2_kg : PyFloat
  source : String
deriving DecidableEq, Repr

instance : Inhabited EmissionEstimate :=
  ⟨⟨"car", .float .nan, 1, 0, .nan, .nan, ""⟩⟩

/-- `estimate_emissions` (emissions.py:59-96), embedded over dynamically
typed arguments.  Each step follows the source line by line. -/
def estimate_emissions (mode : PyVal) (distance_km : PyVal)
    (passengers : PyVal) : Except PyErr EmissionEstimate := do
  -- line 73-74: `if distance_km <= 0: raise ValueError(...)`
  let bad ← pyLeZero distance_km
  if bad then throw .valueError
  -- line 76: `normalized_mode = (mode or "car").lower()`
  let normalized_mode ← pyLowerMethod (pyOr mode (.str "car"))
  -- line 77-78: `if normalized_mode not in _FACTORS: normalized_mode = "car"`
  let normalized_mode :=
    if (FACTORS.lookup normalized_mode).isSome then normalized_mode else "car"
  -- line 80: `f = _factor_for(normalized_mode)`
  let f := factor_for normalized_mode
  -- line 81: `pax = int(passengers) if isinstance(passengers, int) else 1`
  let pax : ℤ := match passengers with
    | .int n => n
    | _ => 1
  -- line 82-83: `if pax < 1: pax = 1`
  let pax := if pax < 1 then 1 else pax
  -- line 85: `divisor = pax if normalized_mode in _PER_VEHICLE else 1`
  let divisor := if normalized_mode ∈ PER_VEHICLE then pax else 1
  -- line 86: `kg = round((distance_km * f) / divisor, 4)`
  let prod ← pyMulFloat distance_km f
  let kg := (prod.divInt divisor).round 4
  -- line 90: `"distance_km": round(distance_km, 2)`
  let dist2 ← pyRoundVal distance_km 2
  -- lines 88-96: the result dict
  return { mode := normalized_mode
           distance_km := dist2
           passengers := divisor
           factor_kg_per_km := f
           kgCO2e := kg
           estimated_co2_kg := kg
           source := "emissions.py" }

/-- Sort order of `results.sort(key=lambda x: x["kgCO2e"])`: ascending
in the key.  On every list the source can reach the keys are either all
rational (positive distance) or all NaN (NaN distance, where Python's
partial `<` makes the stable sort keep the input order, as does this
order since all keys then collapse to `0`). -/
def estLe (a b : EmissionEstimate) : Bool :=
  decide (a.kgCO2e.toRat ≤ b.kgCO2e.toRat)

/-- `compare_modes` (emissions.py:101-111): estimate every table mode at
the given distance, then stable-sort ascending by `kgCO2e`. -/
def compare_modes (distance_km : PyVal) (passengers : PyVal) :
    Except PyErr (List EmissionEstimate) := do
  let results ← (FACTORS.map Prod.fst).mapM
    (fun mode => estimate_emissions (.str mode) distance_km passengers)
  return results.mergeSort estLe

/-! ## `src/app.py` (auto_compare call site) -/

/-- The `plan` list of `auto_compare` (app.py:309-317):
mode, Google mode, transit mode. -/
def auto_compare_plan : List (String × String × Option String) :=
  [("car", "driving", none),
   ("car_hybrid", "driving", none),
   ("bus", "transit", some "bus"),
   ("train", "transit", some "rail"),
   ("subway", "transit", some "subway"),
   ("bike", "bicycling", none),
   ("walk", "walking", none)]

/-- The call `estimate_emissions(distance_km, m, passengers=passengers)`
at app.py:340: the resolved distance (a float) is passed as the first
positional argument and the mode string as the second. -/
def auto_compare_estimate (distance_km : PyFloat) (m : String)
    (passengers : PyVal) : Except PyErr EmissionEstimate :=
  estimate_emissions (.float distance_km) (.str m) passengers

/-! ## Properties of the rounding function -/

theorem floor_le_roundHalfEven (q : ℚ) : ⌊q⌋ ≤ roundHalfEven q := by
  rw [roundHalfEven_eq]
  split_ifs <;> omega

theorem roundHalfEven_le_floor_add_one (q : ℚ) :
    roundHalfEven q ≤ ⌊q⌋ + 1 := by
  rw [roundHalfEven_eq]
  split_ifs <;> omega

theorem roundHalfEven_zero : roundHalfEven 0 = 0 := by
  have h0 : ⌊(0 : ℚ)⌋ = 0 := Int.floor_zero
  rw [roundHalfEven_eq, h0]
  norm_num

theorem roundHalfEven_mono {a b : ℚ} (h : a ≤ b) :
    roundHalfEven a ≤ roundHalfEven b := by
  by_cases hf : ⌊a⌋ = ⌊b⌋
  · rw [roundHalfEven_eq, roundHalfEven_eq, hf]
    split_ifs <;> first | omega | linarith
  · have hlt : ⌊a⌋ < ⌊b⌋ := lt_of_le_of_ne (Int.floor_le_floor h) hf
    calc roundHalfEven a ≤ ⌊a⌋ + 1 := roundHalfEven_le_floor_add_one a
      _ ≤ ⌊b⌋ := by omega
      _ ≤ roundHalfEven b := floor_le_roundHalfEven b

theorem roundHalfEven_nonneg {q : ℚ} (h : 0 ≤ q) : 0 ≤ roundHalfEven q := by
  have := roundHalfEven_mono h
  rw [roundHalfEven_zero] at this
  exact this

theorem pyRound_zero (n : ℕ) : pyRound 0 n = 0 := by
  rw [pyRound, zero_mul, roundHalfEven_zero]
  norm_num

theorem pyRound_mono {a b : ℚ} (n : ℕ) (h : a ≤ b) :
    pyRound a n ≤ pyRound b n := by
  have hp : (0 : ℚ) < ((10 ^ n : ℕ) : ℚ) := by positivity
  have hm : a * ((10 ^ n : ℕ) : ℚ) ≤ b * ((10 ^ n : ℕ) : ℚ) :=
    mul_le_mul_of_nonneg_right h hp.le
  have := roundHalfEven_mono hm
  rw [pyRound, pyRound, div_eq_mul_inv, div_eq_mul_inv]
  have hinv : (0 : ℚ) ≤ (((10 ^ n : ℕ) : ℚ))⁻¹ := by positivity
  exact mul_le_mul_of_nonneg_right (by exact_mod_cast this) hinv

theorem pyRound_nonneg {q : ℚ} (n : ℕ) (h : 0 ≤ q) : 0 ≤ pyRound q n := by
  have := pyRound_mono n h
  rw [pyRound_zero] at this
  exact this

/-- `roundHalfEven` of a value strictly above `1/2` is at least `1`. -/
theorem one_le_roundHalfEven {q : ℚ} (h : 1/2 < q) : 1 ≤ roundHalfEven q := by
  rcases le_or_lt 1 ⌊q⌋ with hf | hf
  · exact le_trans hf (floor_le_roundHalfEven q)
  · have h0 : (0 : ℚ) ≤ q := by linarith
    have h0' : 0 ≤ ⌊q⌋ := Int.floor_nonneg.mpr h0
    have hq0 : ⌊q⌋ = 0 := by omega
    rw [roundHalfEven_eq, hq0]
    simp only [Int.cast_zero, sub_zero]
    split_ifs <;> first | omega | linarith

/-- `pyRound q 4` is strictly positive once `q > 1/20000`. -/
theorem pyRound_pos {q : ℚ} (h : 1/20000 < q) : 0 < pyRound q 4 := by
  have hp : (0 : ℚ) < ((10 ^ 4 : ℕ) : ℚ) := by positivity
  have hh : 1/2 < q * ((10 ^ 4 : ℕ) : ℚ) := by push_cast; linarith
  have h1 := one_le_roundHalfEven hh
  rw [pyRound]
  have : (0 : ℚ) < (roundHalfEven (q * ((10 ^ 4 : ℕ) : ℚ)) : ℚ) := by
    exact_mod_cast lt_of_lt_of_le Int.zero_lt_one h1
  positivity

/-! ## Properties of lower-casing -/

theorem toNat_ofNat_add_32 {n : ℕ} (h1 : 65 ≤ n) (h2 : n ≤ 90) :
    (Char.ofNat (n + 32)).toNat = n + 32 := by
  interval_cases n <;> decide

theorem pyLowerChar_idem (c : Char) :
    pyLowerChar (pyLowerChar c) = pyLowerChar c := by
  simp only [pyLowerChar]
  split_ifs with h1 h2 <;> try rfl
  exfalso
  rw [toNat_ofNat_add_32 h1.1 h1.2] at h2
  omega

theorem pyLower_idem (s : String) : pyLower (pyLower s) = pyLower s := by
  rcases s with ⟨l⟩
  show String.mk ((l.map pyLowerChar).map pyLowerChar) = String.mk (l.map pyLowerChar)
  congr 1
  induction l with
  | nil => rfl
  | cons a l ih => simp [ih, pyLowerChar_idem]

theorem pyLower_eq_empty_iff (s : String) : pyLower s = "" ↔ s = "" := by
  constructor
  · intro h
    have : s.data.map pyLowerChar = [] := congrArg String.data h
    rcases s with ⟨l⟩
    cases l with
    | nil => rfl
    | cons a l => simp at this
  · intro h; rw [h]; rfl

/-! ## Derived forms of the estimator -/

/-- Mode normalization as performed at emissions.py:76-78 for a string mode. -/
def normMode (m : String) : String :=
  if (FACTORS.lookup (pyLower m)).isSome then pyLower m else "car"

/-- Passenger clamping as performed at emissions.py:81-83. -/
def paxOf (p : PyVal) : ℤ :=
  let pax : ℤ := match p with
    | .int n => n
    | _ => 1
  if pax < 1 then 1 else pax

/-- The divisor of emissions.py:85 (also the reported passenger count). -/
def divisorOf (m : String) (p : PyVal) : ℤ :=
  if normMode m ∈ PER_VEHICLE then paxOf p else 1

/-- The rounded emissions mass computed at emissions.py:86. -/
def kgOf (m : String) (d : ℚ) (p : PyVal) : ℚ :=
  pyRound (d * factor_for (normMode m) / ((divisorOf m p : ℤ) : ℚ)) 4

/-- The record returned for a string mode and a positive rational distance. -/
def estRec (m : String) (d : ℚ) (p : PyVal) : EmissionEstimate :=
  { mode := normMode m
    distance_km := .float (.val (pyRound d 2))
    passengers := divisorOf m p
    factor_kg_per_km := factor_for (normMode m)
    kgCO2e := .val (kgOf m d p)
    estimated_co2_kg := .val (kgOf m d p)
    source := "emissions.py" }

/-- The record returned for a string mode and a NaN distance. -/
def estRecNaN (m : String) (p : PyVal) : EmissionEstimate :=
  { mode := normMode m
    distance_km := .float .nan
    passengers := divisorOf m p
    factor_kg_per_km := factor_for (normMode m)
    kgCO2e := .nan
    estimated_co2_kg := .nan
    source := "emissions.py" }

/-- The estimates of `compare_modes` in factor-table order, before sorting. -/
def estList (d : ℚ) (p : PyVal) : List EmissionEstimate :=
  (FACTORS.map Prod.fst).map (fun m => estRec m d p)

theorem ok_bind {ε α β : Type} (a : α) (f : α → Except ε β) :
    (Except.ok a : Except ε α) >>= f = f a := rfl

theorem error_bind {ε α β : Type} (e : ε) (f : α → Except ε β) :
    (Except.error e : Except ε α) >>= f = .error e := rfl

theorem pure_ok {ε α : Type} (a : α) : (pure a : Except ε α) = .ok a := rfl

theorem pyOr_empty_str (x : PyVal) : pyOr (.str "") x = x := rfl

theorem normMode_empty : normMode "" = "car" := rfl

theorem pyLower_car : pyLower "car" = "car" := rfl

theorem pyLower_empty : pyLower "" = "" := rfl

theorem pyOr_str {s : String} (h : s ≠ "") (x : PyVal) :
    pyOr (.str s) x = .str s := by
  simp [pyOr, pyTruthy, h]

/-- `estimate_emissions` on a string mode and a positive distance
returns the `estRec` record. -/
theorem estimate_emissions_pos (m : String) {d : ℚ} (hd : 0 < d) (p : PyVal) :
    estimate_emissions (.str m) (.float (.val d)) p = .ok (estRec m d p) := by
  have hdle : (decide (d ≤ 0)) = false := decide_eq_false (not_le.mpr hd)
  by_cases hm : m = ""
  · subst hm
    simp only [estimate_emissions, pyLeZero, hdle, ok_bind, pure_ok, if_false,
      Bool.false_eq_true, pyOr_empty_str, pyLowerMethod, pyMulFloat,
      pyRoundVal, PyFloat.divInt, PyFloat.round, pyLower_car]
    simp only [estRec, normMode, divisorOf, kgOf, paxOf, pyLower_empty, ite_self]
    rfl
  · simp only [estimate_emissions, pyLeZero, hdle, ok_bind, pure_ok, if_false,
      Bool.false_eq_true, pyOr_str hm, pyLowerMethod, pyMulFloat,
      pyRoundVal, PyFloat.divInt, PyFloat.round]
    simp only [estRec, normMode, divisorOf, kgOf, paxOf]

/-- `estimate_emissions` on a string mode and a NaN distance does not
raise: the NaN propagates into the result. -/
theorem estimate_emissions_nan (m : String) (p : PyVal) :
    estimate_emissions (.str m) (.float .nan) p = .ok (estRecNaN m p) := by
  by_cases hm : m = ""
  · subst hm
    simp only [estimate_emissions, pyLeZero, ok_bind, pure_ok, if_false,
      Bool.false_eq_true, pyOr_empty_str, pyLowerMethod, pyMulFloat,
      pyRoundVal, PyFloat.divInt, PyFloat.round, pyLower_car]
    simp only [estRecNaN, normMode, divisorOf, paxOf, pyLower_empty, ite_self]
    rfl
  · simp only [estimate_emissions, pyLeZero, ok_bind, pure_ok, if_false,
      Bool.false_eq_true, pyOr_str hm, pyLowerMethod, pyMulFloat,
      pyRoundVal, PyFloat.divInt, PyFloat.round]
    simp only [estRecNaN, normMode, divisorOf, paxOf]

/-- `estimate_emissions` raises `ValueError` exactly as at
emissions.py:73-74 when the distance is a non-positive number. -/
theorem estimate_emissions_nonpos (mode passengers : PyVal) {d : ℚ}
    (hd : d ≤ 0) :
    estimate_emissions mode (.float (.val d)) passengers =
      .error .valueError := by
  have hdle : (decide (d ≤ 0)) = true := decide_eq_true hd
  simp only [estimate_emissions, pyLeZero, hdle, ok_bind, if_true]
  rfl

theorem mapM_ok {ε α β : Type} (f : α → Except ε β) (g : α → β)
    (l : List α) (h : ∀ a ∈ l, f a = .ok (g a)) :
    l.mapM f = .ok (l.map g) := by
  induction l with
  | nil => rfl
  | cons a l ih =>
    rw [List.mapM_cons, h a (by simp), List.map_cons,
      ih (fun a ha => h a (by simp [ha]))]
    rfl

/-- `compare_modes` on a positive distance: every per-mode estimate
succeeds and the results are stable-sorted by `kgCO2e`. -/
theorem compare_modes_pos {d : ℚ} (hd : 0 < d) (p : PyVal) :
    compare_modes (.float (.val d)) p =
      .ok ((estList d p).mergeSort estLe) := by
  rw [compare_modes,
    mapM_ok _ (fun m => estRec m d p) _
      (fun a _ => estimate_emissions_pos a hd p)]
  rfl

/-- `compare_modes` on a NaN distance succeeds (NaN propagates). -/
theorem compare_modes_nan (p : PyVal) :
    compare_modes (.float .nan) p =
      .ok (((FACTORS.map Prod.fst).map (fun m => estRecNaN m p)).mergeSort
        estLe) := by
  rw [compare_modes,
    mapM_ok _ (fun m => estRecNaN m p) _
      (fun a _ => estimate_emissions_nan a p)]
  rfl

/-- `compare_modes` raises `ValueError` on a non-positive distance. -/
theorem compare_modes_nonpos (passengers : PyVal) {d : ℚ} (hd : d ≤ 0) :
    compare_modes (.float (.val d)) passengers = .error .valueError := by
  rw [compare_modes]
  rw [show FACTORS.map Prod.fst =
    "car" :: ["car_gas", "car_hybrid", "rideshare", "bus", "train",
      "subway", "bike", "walk"] from rfl]
  rw [List.mapM_cons, estimate_emissions_nonpos _ _ hd, error_bind]
  rfl

/-! ## Facts about the factor table and the derived forms -/

theorem keys_fixed :
    ∀ k ∈ FACTORS.map Prod.fst, pyLower k = k ∧ k ≠ "" := by decide

theorem mem_of_lookup {l : List (String × ℚ)} {k : String} {v : ℚ}
    (h : l.lookup k = some v) : (k, v) ∈ l := by
  rcases List.lookup_eq_some_iff.mp h with ⟨l₁, l₂, rfl, -⟩
  simp

theorem lookup_isSome_of_mem_keys {k : String}
    (h : k ∈ FACTORS.map Prod.fst) : (FACTORS.lookup k).isSome := by
  rcases List.mem_map.mp h with ⟨pr, hpr, rfl⟩
  exact List.lookup_isSome_iff.mpr ⟨pr, hpr, by simp⟩

theorem normMode_mem (m : String) :
    normMode m ∈ FACTORS.map Prod.fst := by
  rw [normMode]
  split_ifs with h
  · rcases List.lookup_isSome_iff.mp h with ⟨pr, hpr, hbeq⟩
    rw [beq_iff_eq] at hbeq
    exact List.mem_map.mpr ⟨pr, hpr, hbeq.symm⟩
  · decide

theorem factors_nonneg : ∀ pr ∈ FACTORS, (0 : ℚ) ≤ pr.2 := by
  intro pr hpr
  simp only [FACTORS, List.mem_cons, List.not_mem_nil, or_false] at hpr
  rcases hpr with h | h | h | h | h | h | h | h | h <;> rw [h] <;> norm_num

theorem lookup_car : FACTORS.lookup "car" = some 0.192 := rfl

theorem factor_for_nonneg (s : String) : 0 ≤ factor_for s := by
  rw [factor_for]
  cases hl : FACTORS.lookup (pyLower (factor_for.pyOrStr s "")) with
  | none =>
    rw [Option.getD_none, lookup_car, Option.getD_some]
    norm_num
  | some v =>
    rw [Option.getD_some]
    exact factors_nonneg _ (mem_of_lookup hl)

/-- `_factor_for` applied to an already-normalized mode is a plain table
lookup. -/
theorem factor_for_normMode (m : String) :
    factor_for (normMode m) = (FACTORS.lookup (normMode m)).getD 0 := by
  rcases keys_fixed _ (normMode_mem m) with ⟨hfix, hne⟩
  rcases Option.isSome_iff_exists.mp
    (lookup_isSome_of_mem_keys (normMode_mem m)) with ⟨v, hv⟩
  rw [factor_for, show factor_for.pyOrStr (normMode m) "" = normMode m from
    if_neg hne, hfix, hv, Option.getD_some, Option.getD_some]

theorem one_le_paxOf (p : PyVal) : 1 ≤ paxOf p := by
  cases p <;> simp only [paxOf] <;> split_ifs <;> omega

theorem one_le_divisorOf (m : String) (p : PyVal) : 1 ≤ divisorOf m p := by
  rw [divisorOf]
  split_ifs
  · exact one_le_paxOf p
  · exact le_refl 1

theorem divisorOf_cast_pos (m : String) (p : PyVal) :
    (0 : ℚ) < ((divisorOf m p : ℤ) : ℚ) := by
  exact_mod_cast lt_of_lt_of_le Int.zero_lt_one (one_le_divisorOf m p)

theorem kgOf_nonneg (m : String) {d : ℚ} (hd : 0 ≤ d) (p : PyVal) :
    0 ≤ kgOf m d p := by
  apply pyRound_nonneg
  exact div_nonneg (mul_nonneg hd (factor_for_nonneg _))
    (divisorOf_cast_pos m p).le

/-! ## Sorting machinery for `compare_modes` -/

theorem estLe_trans : ∀ (a b c : EmissionEstimate),
    estLe a b → estLe b c → estLe a c := by
  intro a b c h1 h2
  simp only [estLe, decide_eq_true_eq] at h1 h2 ⊢
  exact le_trans h1 h2

theorem estLe_total : ∀ (a b : EmissionEstimate),
    estLe a b || estLe b a := by
  intro a b
  rcases le_total a.kgCO2e.toRat b.kgCO2e.toRat with h | h <;>
    simp [estLe, h]

theorem sorted_mergeSort_key (l : List EmissionEstimate) :
    (l.mergeSort estLe).Pairwise
      (fun a b => a.kgCO2e.toRat ≤ b.kgCO2e.toRat) := by
  have h := List.sorted_mergeSort estLe_trans estLe_total l
  exact h.imp (fun hab => by simpa [estLe] using hab)

theorem filter_key_mergeSort (l : List EmissionEstimate) (c : ℚ) :
    (l.mergeSort estLe).filter (fun r => r.kgCO2e.toRat == c) =
      l.filter (fun r => r.kgCO2e.toRat == c) := by
  have hsub : List.Sublist (l.filter (fun r => r.kgCO2e.toRat == c))
      (l.mergeSort estLe) := by
    apply List.sublist_mergeSort estLe_trans estLe_total
    · apply List.pairwise_of_forall_mem_list
      intro a ha b hb
      rcases List.mem_filter.mp ha with ⟨-, ha2⟩
      rcases List.mem_filter.mp hb with ⟨-, hb2⟩
      rw [beq_iff_eq] at ha2 hb2
      simp [estLe, ha2, hb2]
    · exact List.filter_sublist l
  have hfe : (l.filter (fun r => r.kgCO2e.toRat == c)).filter
      (fun r => r.kgCO2e.toRat == c) =
        l.filter (fun r => r.kgCO2e.toRat == c) :=
    List.filter_eq_self.mpr (fun a ha => (List.mem_filter.mp ha).2)
  have h2 := List.Sublist.filter (fun r => r.kgCO2e.toRat == c) hsub
  rw [hfe] at h2
  have hlen : ((l.mergeSort estLe).filter
        (fun r => r.kgCO2e.toRat == c)).length =
      (l.filter (fun r => r.kgCO2e.toRat == c)).length :=
    ((List.mergeSort_perm l estLe).filter _).length_eq
  exact (h2.eq_of_length hlen.symm).symm

theorem take_two_zero {l : List EmissionEstimate} {b w : EmissionEstimate}
    (hsort : l.Pairwise (fun a b => a.kgCO2e.toRat ≤ b.kgCO2e.toRat))
    (hnn : ∀ r ∈ l, 0 ≤ r.kgCO2e.toRat)
    (hfil : l.filter (fun r => r.kgCO2e.toRat == 0) = [b, w]) :
    l.take 2 = [b, w] := by
  have hbmem : b ∈ l := by
    have hm : b ∈ l.filter (fun r => r.kgCO2e.toRat == 0) := by rw [hfil]; simp
    exact (List.mem_filter.mp hm).1
  have hb0 : b.kgCO2e.toRat = 0 := by
    have hm : b ∈ l.filter (fun r => r.kgCO2e.toRat == 0) := by rw [hfil]; simp
    have := (List.mem_filter.mp hm).2
    rwa [beq_iff_eq] at this
  obtain ⟨r0, t0, rfl⟩ : ∃ r0 t0, l = r0 :: t0 := by
    cases l with
    | nil => simp at hfil
    | cons a t => exact ⟨a, t, rfl⟩
  have hr0 : r0.kgCO2e.toRat = 0 := by
    rcases List.mem_cons.mp hbmem with heq | hb'
    · rw [heq] at hb0; exact hb0
    · have h1 : r0.kgCO2e.toRat ≤ b.kgCO2e.toRat :=
        List.rel_of_pairwise_cons hsort hb'
      have h2 : 0 ≤ r0.kgCO2e.toRat := hnn _ (by simp)
      rw [hb0] at h1
      linarith
  rw [List.filter_cons_of_pos (by simp [hr0])] at hfil
  have hb0' : r0 = b := (List.cons_eq_cons.mp hfil).1
  have hfil' : t0.filter (fun r => r.kgCO2e.toRat == 0) = [w] :=
    (List.cons_eq_cons.mp hfil).2
  have hw0 : w.kgCO2e.toRat = 0 := by
    have hm : w ∈ t0.filter (fun r => r.kgCO2e.toRat == 0) := by rw [hfil']; simp
    have := (List.mem_filter.mp hm).2
    rwa [beq_iff_eq] at this
  have hwmem : w ∈ t0 := by
    have hm : w ∈ t0.filter (fun r => r.kgCO2e.toRat == 0) := by rw [hfil']; simp
    exact (List.mem_filter.mp hm).1
  obtain ⟨r1, t1, rfl⟩ : ∃ r1 t1, t0 = r1 :: t1 := by
    cases t0 with
    | nil => simp at hwmem
    | cons a t => exact ⟨a, t, rfl⟩
  have hr1 : r1.kgCO2e.toRat = 0 := by
    rcases List.mem_cons.mp hwmem with heq | hw'
    · rw [heq] at hw0; exact hw0
    · have h1 : r1.kgCO2e.toRat ≤ w.kgCO2e.toRat :=
        List.rel_of_pairwise_cons hsort.of_cons hw'
      have h2 : 0 ≤ r1.kgCO2e.toRat := hnn _ (by simp)
      rw [hw0] at h1
      linarith
  rw [List.filter_cons_of_pos (by simp [hr1])] at hfil'
  have hw1 : r1 = w := (List.cons_eq_cons.mp hfil').1
  rw [hb0', hw1]
  rfl

theorem normMode_key {k : String} (hk : k ∈ FACTORS.map Prod.fst) :
    normMode k = k := by
  rw [normMode, (keys_fixed k hk).1, if_pos (lookup_isSome_of_mem_keys hk)]

theorem estRec_mode (m : String) (d : ℚ) (p : PyVal) :
    (estRec m d p).mode = normMode m := rfl

theorem estRec_toRat (m : String) (d : ℚ) (p : PyVal) :
    (estRec m d p).kgCO2e.toRat = kgOf m d p := rfl

theorem estList_map_mode (d : ℚ) (p : PyVal) :
    (estList d p).map (fun r => r.mode) = FACTORS.map Prod.fst := by
  rw [estList, List.map_map]
  have h : ∀ k ∈ FACTORS.map Prod.fst,
      ((fun r => r.mode) ∘ fun m => estRec m d p) k = id k := by
    intro k hk
    simp [estRec_mode, normMode_key hk]
  rw [List.map_congr_left h, List.map_id]

theorem factor_for_bike : factor_for (normMode "bike") = 0 := by
  with_unfolding_all decide

theorem factor_for_walk : factor_for (normMode "walk") = 0 := by
  with_unfolding_all decide

theorem kgOf_zero_factor {m : String} (hm : factor_for (normMode m) = 0)
    (d : ℚ) (p : PyVal) : kgOf m d p = 0 := by
  rw [kgOf, hm, mul_zero, zero_div, pyRound_zero]

theorem filter_estList (d : ℚ) (p : PyVal)
    (hpos : ∀ m ∈ (["car", "car_gas", "car_hybrid", "rideshare", "bus",
      "train", "subway"] : List String), 0 < kgOf m d p) :
    (estList d p).filter (fun r => r.kgCO2e.toRat == 0) =
      [estRec "bike" d p, estRec "walk" d p] := by
  have h7 : ∀ m ∈ (["car", "car_gas", "car_hybrid", "rideshare", "bus",
      "train", "subway"] : List String), (kgOf m d p == 0) = false :=
    fun m hm => beq_eq_false_iff_ne.mpr (ne_of_gt (hpos m hm))
  have hb : (kgOf "bike" d p == 0) = true :=
    beq_iff_eq.mpr (kgOf_zero_factor factor_for_bike d p)
  have hw : (kgOf "walk" d p == 0) = true :=
    beq_iff_eq.mpr (kgOf_zero_factor factor_for_walk d p)
  simp only [estList, FACTORS, List.map_cons, List.map_nil, List.filter_cons,
    estRec_toRat, List.filter_nil]
  rw [h7 "car" (by simp), h7 "car_gas" (by simp), h7 "car_hybrid" (by simp),
    h7 "rideshare" (by simp), h7 "bus" (by simp), h7 "train" (by simp),
    h7 "subway" (by simp), hb, hw]
  simp

/-! ## Claims -/

/-! ## Spec-side definitions (the formula as the specification words it) -/

/-- The spec's mode normalization: case-insensitive table match,
unknown values replaced by `car`. -/
def specNormalize (m : String) : String :=
  if (FACTORS.lookup (pyLower m)).isSome then pyLower m else "car"

/-- The spec's factor: "the emission-factor table entry for the
normalized mode". -/
def specFactor (m : String) : ℚ :=
  (FACTORS.lookup (specNormalize m)).getD 0

/-- The spec's effective passenger count: `max(1, passengers)` for the
per-vehicle modes, `1` otherwise. -/
def specEffective (m : String) (p : ℤ) : ℤ :=
  if specNormalize m ∈ (["car", "car_gas", "car_hybrid", "rideshare"] :
      List String) then max 1 p else 1

theorem normMode_pyLower (m : String) : normMode (pyLower m) = normMode m := by
  rw [normMode, normMode, pyLower_idem]

theorem estRec_mode_congr {m1 m2 : String} (h : normMode m1 = normMode m2)
    (d : ℚ) (p : PyVal) : estRec m1 d p = estRec m2 d p := by
  simp only [estRec, kgOf, divisorOf, h]

/-- C1: for every positive distance, mode string and integer passenger
count, the returned `kgCO2e` is `round(d * factor / e, 4)` with `factor`
the table entry of the normalized mode and `e = max(1, p)` for
per-vehicle modes, `1` otherwise; in particular the three literal
scenarios of the spec hold. -/
theorem claim_C1 :
    (∀ (d : ℚ) (m : String) (p : ℤ) (r : EmissionEstimate), 0 < d →
      estimate_emissions (.str m) (.float (.val d)) (.int p) = .ok r →
      r.kgCO2e =
        .val (pyRound (d * specFactor m / ((specEffective m p : ℤ) : ℚ)) 4)) ∧
    (estimate_emissions (.str "car") (.float (.val 10)) (.int 1)).map
      (fun r => r.kgCO2e) = .ok (.val 1.92) ∧
    (estimate_emissions (.str "bus") (.float (.val 10)) (.int 4)).map
      (fun r => r.kgCO2e) = .ok (.val 0.82) ∧
    (estimate_emissions (.str "car") (.float (.val 10)) (.int 4)).map
      (fun r => r.kgCO2e) = .ok (.val 0.48) := by
  refine ⟨?_, ?_, ?_, ?_⟩
  · intro d m p r hd hok
    rw [estimate_emissions_pos m hd (.int p)] at hok
    injection hok with hok
    subst hok
    show PyFloat.val (kgOf m d (.int p)) = _
    congr 1
    have h1 : specFactor m = (FACTORS.lookup (normMode m)).getD 0 := rfl
    have h2 : divisorOf m (.int p) = specEffective m p := by
      rw [divisorOf, specEffective, paxOf,
        show specNormalize m = normMode m from rfl,
        show (["car", "car_gas", "car_hybrid", "rideshare"] : List String) =
          PER_VEHICLE from rfl]
      split_ifs <;> omega
    rw [kgOf, factor_for_normMode, h1, h2]
  · with_unfolding_all decide
  · with_unfolding_all decide
  · with_unfolding_all decide

/-- C1 witness at `d = 10`, `m = "car"`, `p = 1`. -/
theorem claim_C1_witness :
    0 < (10 : ℚ) ∧
    estimate_emissions (.str "car") (.float (.val 10)) (.int 1) =
      .ok (estRec "car" 10 (.int 1)) ∧
    (estRec "car" 10 (.int 1)).kgCO2e =
      .val (pyRound (10 * specFactor "car" /
        ((specEffective "car" 1 : ℤ) : ℚ)) 4) :=
  ⟨by with_unfolding_all decide, by with_unfolding_all decide,
    claim_C1.1 10 "car" 1 (estRec "car" 10 (.int 1))
      (by with_unfolding_all decide) (by with_unfolding_all decide)⟩

/-- C2 counterexample: with a NaN distance the estimator does not raise;
it returns a result (with NaN kgCO2e) because `nan <= 0` is false. -/
theorem claim_C2_counterexample :
    (estimate_emissions (.str "car") (.float .nan) (.int 1)).isOk = true := by
  with_unfolding_all decide

/-- C2 amended: `estimate_emissions` and `compare_modes` raise exactly on
`distance <= 0` under IEEE comparison; NaN compares false, so a NaN
distance raises nothing and yields a NaN `kgCO2e`; for every strictly
positive distance no error is raised, and `ValueError` is the only error
on the typed interface. -/
theorem claim_C2_amended :
    (∀ (m : String) (p : PyVal) (q : ℚ), q ≤ 0 →
      estimate_emissions (.str m) (.float (.val q)) p = .error .valueError) ∧
    (∀ (m : String) (p : PyVal) (q : ℚ), 0 < q →
      (estimate_emissions (.str m) (.float (.val q)) p).isOk = true) ∧
    (∀ (m : String) (p : PyVal) (r : EmissionEstimate),
      estimate_emissions (.str m) (.float .nan) p = .ok r →
      r.kgCO2e = .nan) ∧
    (∀ (m : String) (p : PyVal),
      (estimate_emissions (.str m) (.float .nan) p).isOk = true) ∧
    (∀ (p : PyVal) (q : ℚ), q ≤ 0 →
      compare_modes (.float (.val q)) p = .error .valueError) ∧
    (∀ (p : PyVal) (q : ℚ), 0 < q →
      (compare_modes (.float (.val q)) p).isOk = true) ∧
    (∀ (p : PyVal), (compare_modes (.float .nan) p).isOk = true) := by
  refine ⟨?_, ?_, ?_, ?_, ?_, ?_, ?_⟩
  · intro m p q hq
    exact estimate_emissions_nonpos _ _ hq
  · intro m p q hq
    rw [estimate_emissions_pos m hq p]
    rfl
  · intro m p r hok
    rw [estimate_emissions_nan m p] at hok
    injection hok with hok
    subst hok
    rfl
  · intro m p
    rw [estimate_emissions_nan m p]
    rfl
  · intro p q hq
    exact compare_modes_nonpos _ hq
  · intro p q hq
    rw [compare_modes_pos hq p]
    rfl
  · intro p
    rw [compare_modes_nan p]
    rfl

/-- C2 witness at `q = -5` (raises) and `q = 10` (succeeds). -/
theorem claim_C2_witness :
    (-5 : ℚ) ≤ 0 ∧ 0 < (10 : ℚ) ∧
    estimate_emissions (.str "car") (.float (.val (-5))) (.int 1) =
      .error .valueError ∧
    (compare_modes (.float (.val 10)) (.int 1)).isOk = true :=
  ⟨by with_unfolding_all decide, by with_unfolding_all decide,
    claim_C2_amended.1 "car" (.int 1) (-5) (by with_unfolding_all decide),
    claim_C2_amended.2.2.2.2.2.1 (.int 1) 10 (by with_unfolding_all decide)⟩

/-- C3: mode matching is case-insensitive (lower-casing the mode string
leaves the result unchanged), unknown modes (including the empty string
and None) silently normalize to `car`, and the spec's literal
`spaceship`/`CAR` scenario holds. -/
theorem claim_C3 :
    (∀ (d : ℚ) (p : PyVal) (m : String), 0 < d →
      estimate_emissions (.str m) (.float (.val d)) p =
        estimate_emissions (.str (pyLower m)) (.float (.val d)) p) ∧
    (∀ (d : ℚ) (p : PyVal) (m : String) (r : EmissionEstimate), 0 < d →
      FACTORS.lookup (pyLower m) = none →
      estimate_emissions (.str m) (.float (.val d)) p = .ok r →
      r.mode = "car") ∧
    (∀ (mode distance passengers : PyVal),
      mode = .none ∨ mode = .str "" →
      estimate_emissions mode distance passengers =
        estimate_emissions (.str "car") distance passengers) ∧
    (estimate_emissions (.str "spaceship") (.float (.val 10)) (.int 1)).map
      (fun r => r.mode) = .ok "car" ∧
    estimate_emissions (.str "spaceship") (.float (.val 10)) (.int 1) =
      estimate_emissions (.str "CAR") (.float (.val 10)) (.int 1) := by
  refine ⟨?_, ?_, ?_, ?_, ?_⟩
  · intro d p m hd
    rw [estimate_emissions_pos m hd p, estimate_emissions_pos (pyLower m) hd p,
      estRec_mode_congr (normMode_pyLower m)]
  · intro d p m r hd hnone hok
    rw [estimate_emissions_pos m hd p] at hok
    injection hok with hok
    subst hok
    show normMode m = "car"
    rw [normMode, hnone]
    rfl
  · rintro mode distance passengers (rfl | rfl) <;> rfl
  · with_unfolding_all decide
  · with_unfolding_all decide

/-- C3 witness at `d = 10`, `m = "CAR"`, unknown mode `"spaceship"`. -/
theorem claim_C3_witness :
    0 < (10 : ℚ) ∧
    FACTORS.lookup (pyLower "spaceship") = none ∧
    estimate_emissions (.str "spaceship") (.float (.val 10)) (.int 1) =
      .ok (estRec "spaceship" 10 (.int 1)) ∧
    estimate_emissions (.str "CAR") (.float (.val 10)) (.int 1) =
      estimate_emissions (.str (pyLower "CAR")) (.float (.val 10)) (.int 1) ∧
    (estRec "spaceship" 10 (.int 1)).mode = "car" :=
  ⟨by with_unfolding_all decide, by with_unfolding_all decide,
    by with_unfolding_all decide,
    claim_C3.1 10 (.int 1) "CAR" (by with_unfolding_all decide),
    claim_C3.2.1 10 (.int 1) "spaceship" (estRec "spaceship" 10 (.int 1))
      (by with_unfolding_all decide) (by with_unfolding_all decide)
      (by with_unfolding_all decide)⟩

/-- C4: the call at app.py:340 passes the resolved distance as the first
positional argument (the `mode` parameter) and the mode string as the
second (the `distance_km` parameter); the `distance_km <= 0` guard then
compares a str against 0, so every invocation planned by `auto_compare`
raises `TypeError` instead of returning an estimate. -/
theorem claim_C4 :
    ∀ it ∈ auto_compare_plan, ∀ (dist : PyFloat) (p : PyVal),
      auto_compare_estimate dist it.1 p = .error .typeError := by
  intro it _ dist p
  rfl

/-- C4 witness at the first plan entry, distance 3.0, one passenger. -/
theorem claim_C4_witness :
    ("car", "driving", (Option.none : Option String)) ∈ auto_compare_plan ∧
    auto_compare_estimate (.val 3) "car" (.int 1) = .error .typeError :=
  ⟨by decide,
    claim_C4 ("car", "driving", Option.none) (by decide) (.val 3) (.int 1)⟩

/-- The sorted list produced by `compare_modes` at a positive distance. -/
def sortedEstimates (d : ℚ) (p : PyVal) : List EmissionEstimate :=
  (estList d p).mergeSort estLe

/-- C5 counterexample: at `d = 0.001` every non-vehicle mode's estimate
rounds to `0.0`, so the stable sort puts `train` and `subway` (table
order) ahead of `bike` and `walk`: the zero-factor modes are NOT first. -/
theorem claim_C5_counterexample :
    (compare_modes (.float (.val (1/1000))) (.int 1)).map
      (fun l => l.map (fun r => r.mode)) =
      .ok ["train", "subway", "bike", "walk", "car_hybrid", "bus", "car",
        "car_gas", "rideshare"] := by
  with_unfolding_all decide

/-- C5 amended: `compare_modes` returns exactly one estimate per table
mode (nine entries), stable-sorted ascending by `kgCO2e` (ties keep the
factor-table iteration order); `bike` and `walk` come first, tied at 0 and
in table order, whenever every other mode's rounded estimate is positive
(true e.g. at `d = 10`, but false for very small distances, where other
modes also round to 0.0 and precede them in table order). -/
theorem claim_C5_amended :
    ∀ (d : ℚ) (p : PyVal), 0 < d →
    compare_modes (.float (.val d)) p = .ok (sortedEstimates d p) ∧
    (sortedEstimates d p).length = 9 ∧
    List.Perm ((sortedEstimates d p).map (fun r => r.mode))
      (FACTORS.map Prod.fst) ∧
    (sortedEstimates d p).Pairwise
      (fun a b => a.kgCO2e.toRat ≤ b.kgCO2e.toRat) ∧
    (∀ c : ℚ, (sortedEstimates d p).filter (fun r => r.kgCO2e.toRat == c) =
      (estList d p).filter (fun r => r.kgCO2e.toRat == c)) ∧
    ((∀ m ∈ (["car", "car_gas", "car_hybrid", "rideshare", "bus", "train",
        "subway"] : List String), 0 < kgOf m d p) →
      (sortedEstimates d p).take 2 =
        [estRec "bike" d p, estRec "walk" d p] ∧
      ((sortedEstimates d p).take 2).map (fun r => r.mode) =
        ["bike", "walk"] ∧
      ∀ r ∈ (sortedEstimates d p).take 2, r.kgCO2e = .val 0) := by
  intro d p hd
  have hnn : ∀ r ∈ sortedEstimates d p, 0 ≤ r.kgCO2e.toRat := by
    intro r hr
    rw [sortedEstimates, List.mem_mergeSort, estList] at hr
    rcases List.mem_map.mp hr with ⟨m, -, rfl⟩
    rw [estRec_toRat]
    exact kgOf_nonneg m hd.le p
  refine ⟨compare_modes_pos hd p, ?_, ?_, sorted_mergeSort_key _, ?_, ?_⟩
  · rw [sortedEstimates, List.length_mergeSort, estList, List.length_map]
    rfl
  · have h1 : List.Perm ((sortedEstimates d p).map (fun r => r.mode))
        ((estList d p).map (fun r => r.mode)) :=
      (List.mergeSort_perm (estList d p) estLe).map _
    rw [estList_map_mode d p] at h1
    exact h1
  · intro c
    exact filter_key_mergeSort (estList d p) c
  · intro hpos
    have htake : (sortedEstimates d p).take 2 =
        [estRec "bike" d p, estRec "walk" d p] := by
      apply take_two_zero (sorted_mergeSort_key _) hnn
      show ((estList d p).mergeSort estLe).filter
        (fun r => r.kgCO2e.toRat == 0) = _
      rw [filter_key_mergeSort, filter_estList d p hpos]
    refine ⟨htake, ?_, ?_⟩
    · rw [htake]
      simp only [List.map_cons, List.map_nil, estRec_mode]
      rw [normMode_key (by decide), normMode_key (by decide)]
    · intro r hr
      rw [htake] at hr
      rcases List.mem_cons.mp hr with rfl | hr
      · show PyFloat.val (kgOf "bike" d p) = _
        rw [kgOf_zero_factor factor_for_bike]
      · rcases List.mem_cons.mp hr with rfl | hr
        · show PyFloat.val (kgOf "walk" d p) = _
          rw [kgOf_zero_factor factor_for_walk]
        · simp at hr

/-- C5 witness at `d = 10`, one passenger (all hypotheses concrete). -/
theorem claim_C5_witness :
    0 < (10 : ℚ) ∧
    compare_modes (.float (.val 10)) (.int 1) =
      .ok (sortedEstimates 10 (.int 1)) ∧
    (sortedEstimates 10 (.int 1)).length = 9 :=
  ⟨by with_unfolding_all decide,
    (claim_C5_amended 10 (.int 1) (by with_unfolding_all decide)).1,
    (claim_C5_amended 10 (.int 1) (by with_unfolding_all decide)).2.1⟩

set_option maxRecDepth 4000

theorem paxOf_int (n : ℤ) : paxOf (.int n) = if n < 1 then 1 else n := rfl

theorem perVehicle_normMode : ∀ m ∈ PER_VEHICLE, normMode m = m := by decide

theorem nonVehicle_facts :
    ∀ m ∈ (["bus", "train", "subway", "bike", "walk"] : List String),
      normMode m = m ∧ m ∉ PER_VEHICLE := by decide

theorem kgOf_mono_distance (m : String) (p : PyVal) {d1 d2 : ℚ}
    (h12 : d1 ≤ d2) : kgOf m d1 p ≤ kgOf m d2 p := by
  apply pyRound_mono
  rw [div_eq_mul_inv, div_eq_mul_inv]
  have hpos := divisorOf_cast_pos m p
  have hinv : (0 : ℚ) ≤ (((divisorOf m p : ℤ) : ℚ))⁻¹ := by positivity
  exact mul_le_mul_of_nonneg_right
    (mul_le_mul_of_nonneg_right h12 (factor_for_nonneg _)) hinv

theorem kgOf_anti_divisor (m : String) {d : ℚ} (hd : 0 ≤ d) {p1 p2 : PyVal}
    (h : divisorOf m p1 ≤ divisorOf m p2) : kgOf m d p2 ≤ kgOf m d p1 := by
  apply pyRound_mono
  apply div_le_div_of_nonneg_left (mul_nonneg hd (factor_for_nonneg _))
    (divisorOf_cast_pos m p1)
  exact_mod_cast h

/-- C6: every successful estimate has a mode from the factor table, a
passenger count of at least 1, and a non-negative kgCO2e. -/
theorem claim_C6 : ∀ (d : ℚ) (m : String) (p : PyVal) (r : EmissionEstimate),
    0 < d → estimate_emissions (.str m) (.float (.val d)) p = .ok r →
    r.mode ∈ FACTORS.map Prod.fst ∧ 1 ≤ r.passengers ∧
      0 ≤ r.kgCO2e.toRat := by
  intro d m p r hd hok
  rw [estimate_emissions_pos m hd p] at hok
  injection hok with hok
  subst hok
  exact ⟨normMode_mem m, one_le_divisorOf m p, kgOf_nonneg m hd.le p⟩

/-- C6 witness at `d = 10`, `m = "car"`, `p = 1`. -/
theorem claim_C6_witness :
    0 < (10 : ℚ) ∧
    estimate_emissions (.str "car") (.float (.val 10)) (.int 1) =
      .ok (estRec "car" 10 (.int 1)) ∧
    ((estRec "car" 10 (.int 1)).mode ∈ FACTORS.map Prod.fst ∧
      1 ≤ (estRec "car" 10 (.int 1)).passengers ∧
      0 ≤ (estRec "car" 10 (.int 1)).kgCO2e.toRat) :=
  ⟨by with_unfolding_all decide, by with_unfolding_all decide,
    claim_C6 10 "car" (.int 1) (estRec "car" 10 (.int 1))
      (by with_unfolding_all decide) (by with_unfolding_all decide)⟩

/-- C7: for per-vehicle modes kgCO2e is non-increasing in the integer
passenger count; for the other modes the whole result is independent of
the passengers argument. -/
theorem claim_C7 :
    (∀ m ∈ PER_VEHICLE, ∀ (d : ℚ) (p1 p2 : ℤ) (r1 r2 : EmissionEstimate),
      0 < d → p1 ≤ p2 →
      estimate_emissions (.str m) (.float (.val d)) (.int p1) = .ok r1 →
      estimate_emissions (.str m) (.float (.val d)) (.int p2) = .ok r2 →
      r2.kgCO2e.toRat ≤ r1.kgCO2e.toRat) ∧
    (∀ m ∈ (["bus", "train", "subway", "bike", "walk"] : List String),
      ∀ (d : ℚ) (p1 p2 : PyVal), 0 < d →
      estimate_emissions (.str m) (.float (.val d)) p1 =
        estimate_emissions (.str m) (.float (.val d)) p2) := by
  constructor
  · intro m hm d p1 p2 r1 r2 hd hp h1 h2
    rw [estimate_emissions_pos m hd (.int p1)] at h1
    rw [estimate_emissions_pos m hd (.int p2)] at h2
    injection h1 with h1
    injection h2 with h2
    subst h1
    subst h2
    apply kgOf_anti_divisor m hd.le
    simp only [divisorOf, paxOf_int]
    split_ifs <;> omega
  · intro m hm d p1 p2 hd
    rw [estimate_emissions_pos m hd p1, estimate_emissions_pos m hd p2]
    have h := nonVehicle_facts m hm
    simp [estRec, kgOf, divisorOf, h.1, h.2]

/-- C7 witness: `car` at 10 km with 1 vs 4 passengers, `bus` at 10 km
with passengers 1 vs 5. -/
theorem claim_C7_witness :
    "car" ∈ PER_VEHICLE ∧ 0 < (10 : ℚ) ∧ (1 : ℤ) ≤ 4 ∧
    (estRec "car" 10 (.int 4)).kgCO2e.toRat ≤
      (estRec "car" 10 (.int 1)).kgCO2e.toRat ∧
    "bus" ∈ (["bus", "train", "subway", "bike", "walk"] : List String) ∧
    estimate_emissions (.str "bus") (.float (.val 10)) (.int 1) =
      estimate_emissions (.str "bus") (.float (.val 10)) (.int 5) :=
  ⟨by decide, by with_unfolding_all decide, by decide,
    claim_C7.1 "car" (by decide) 10 1 4 (estRec "car" 10 (.int 1))
      (estRec "car" 10 (.int 4)) (by with_unfolding_all decide) (by decide)
      (by with_unfolding_all decide) (by with_unfolding_all decide),
    by decide,
    claim_C7.2 "bus" (by decide) 10 (.int 1) (.int 5)
      (by with_unfolding_all decide)⟩

/-- C8: for fixed mode and passengers, kgCO2e is monotone non-decreasing
in the distance. -/
theorem claim_C8 : ∀ (m : String) (p : PyVal) (d1 d2 : ℚ)
    (r1 r2 : EmissionEstimate), 0 < d1 → d1 ≤ d2 →
    estimate_emissions (.str m) (.float (.val d1)) p = .ok r1 →
    estimate_emissions (.str m) (.float (.val d2)) p = .ok r2 →
    r1.kgCO2e.toRat ≤ r2.kgCO2e.toRat := by
  intro m p d1 d2 r1 r2 h1 h12 e1 e2
  rw [estimate_emissions_pos m h1 p] at e1
  rw [estimate_emissions_pos m (lt_of_lt_of_le h1 h12) p] at e2
  injection e1 with e1
  injection e2 with e2
  subst e1
  subst e2
  exact kgOf_mono_distance m p h12

/-- C8 witness at 10 km vs 20 km by car. -/
theorem claim_C8_witness :
    0 < (10 : ℚ) ∧ (10 : ℚ) ≤ 20 ∧
    (estRec "car" 10 (.int 1)).kgCO2e.toRat ≤
      (estRec "car" 20 (.int 1)).kgCO2e.toRat :=
  ⟨by with_unfolding_all decide, by with_unfolding_all decide,
    claim_C8 "car" (.int 1) 10 20 (estRec "car" 10 (.int 1))
      (estRec "car" 20 (.int 1)) (by with_unfolding_all decide)
      (by with_unfolding_all decide) (by with_unfolding_all decide)
      (by with_unfolding_all decide)⟩

/-- C9: the reported distance is `round(d, 2)` (not the input), the extra
fields `estimated_co2_kg` and `source` are as in the code, and at
`d = 10.005` the returned kgCO2e (1.921, computed from the unrounded
input) differs from recomputing with the rounded distance (1.92). -/
theorem claim_C9 :
    (∀ (d : ℚ) (m : String) (p : PyVal) (r : EmissionEstimate), 0 < d →
      estimate_emissions (.str m) (.float (.val d)) p = .ok r →
      r.distance_km = .float (.val (pyRound d 2)) ∧
      r.estimated_co2_kg = r.kgCO2e ∧
      r.source = "emissions.py") ∧
    (estimate_emissions (.str "car") (.float (.val (10005/1000)))
        (.int 1)).map (fun r => (r.distance_km, r.kgCO2e)) =
      .ok (.float (.val 10), .val (1921/1000)) ∧
    (estimate_emissions (.str "car") (.float (.val (10005/1000)))
        (.int 1)).map (fun r => r.kgCO2e) ≠
      .ok (.val (pyRound (10 * 0.192) 4)) := by
  refine ⟨?_, ?_, ?_⟩
  · intro d m p r hd hok
    rw [estimate_emissions_pos m hd p] at hok
    injection hok with hok
    subst hok
    exact ⟨rfl, rfl, rfl⟩
  · with_unfolding_all decide
  · with_unfolding_all decide

/-- C9 witness at `d = 10.005`. -/
theorem claim_C9_witness :
    0 < (10005/1000 : ℚ) ∧
    estimate_emissions (.str "car") (.float (.val (10005/1000))) (.int 1) =
      .ok (estRec "car" (10005/1000) (.int 1)) ∧
    ((estRec "car" (10005/1000) (.int 1)).distance_km =
        .float (.val (pyRound (10005/1000) 2)) ∧
      (estRec "car" (10005/1000) (.int 1)).estimated_co2_kg =
        (estRec "car" (10005/1000) (.int 1)).kgCO2e ∧
      (estRec "car" (10005/1000) (.int 1)).source = "emissions.py") :=
  ⟨by with_unfolding_all decide, by with_unfolding_all decide,
    claim_C9.1 (10005/1000) "car" (.int 1)
      (estRec "car" (10005/1000) (.int 1)) (by with_unfolding_all decide)
      (by with_unfolding_all decide)⟩

/-- C10: non-integer passengers values (floats, strings, None) are
treated as 1; integer passengers below 1 are clamped to 1; integer
passengers of at least 1 are used as given for per-vehicle modes. -/
theorem claim_C10 :
    (∀ (mode distance : PyVal) (x : PyFloat),
      estimate_emissions mode distance (.float x) =
        estimate_emissions mode distance (.int 1)) ∧
    (∀ (mode distance : PyVal) (s : String),
      estimate_emissions mode distance (.str s) =
        estimate_emissions mode distance (.int 1)) ∧
    (∀ (mode distance : PyVal),
      estimate_emissions mode distance .none =
        estimate_emissions mode distance (.int 1)) ∧
    (∀ (d : ℚ) (m : String) (n : ℤ), 0 < d → n < 1 →
      estimate_emissions (.str m) (.float (.val d)) (.int n) =
        estimate_emissions (.str m) (.float (.val d)) (.int 1)) ∧
    (∀ (d : ℚ) (m : String) (n : ℤ) (r : EmissionEstimate), 0 < d → 1 ≤ n →
      m ∈ PER_VEHICLE →
      estimate_emissions (.str m) (.float (.val d)) (.int n) = .ok r →
      r.passengers = n) := by
  refine ⟨fun _ _ _ => rfl, fun _ _ _ => rfl, fun _ _ => rfl, ?_, ?_⟩
  · intro d m n hd hn
    rw [estimate_emissions_pos m hd (.int n),
      estimate_emissions_pos m hd (.int 1)]
    have h : divisorOf m (.int n) = divisorOf m (.int 1) := by
      simp only [divisorOf, paxOf_int]
      split_ifs <;> omega
    simp only [estRec, kgOf, h]
  · intro d m n r hd hn hm hok
    rw [estimate_emissions_pos m hd (.int n)] at hok
    injection hok with hok
    subst hok
    show divisorOf m (.int n) = n
    simp only [divisorOf, paxOf_int, perVehicle_normMode m hm, if_pos hm]
    omega

/-- C10 witness: float passengers 4.0 vs 1, clamping 0 to 1, and a used
integer of 4 for `car`. -/
theorem claim_C10_witness :
    0 < (10 : ℚ) ∧ (0 : ℤ) < 1 ∧ (1 : ℤ) ≤ 4 ∧ "car" ∈ PER_VEHICLE ∧
    estimate_emissions (.str "car") (.float (.val 10))
        (.float (.val 4)) =
      estimate_emissions (.str "car") (.float (.val 10)) (.int 1) ∧
    estimate_emissions (.str "car") (.float (.val 10)) (.int 0) =
      estimate_emissions (.str "car") (.float (.val 10)) (.int 1) ∧
    (estRec "car" 10 (.int 4)).passengers = 4 :=
  ⟨by with_unfolding_all decide, by decide, by decide, by decide,
    claim_C10.1 (.str "car") (.float (.val 10)) (.val 4),
    claim_C10.2.2.2.1 10 "car" 0 (by with_unfolding_all decide) (by decide),
    claim_C10.2.2.2.2 10 "car" 4 (estRec "car" 10 (.int 4))
      (by with_unfolding_all decide) (by decide) (by decide)
      (by with_unfolding_all decide)⟩

end CleanCommute
